import Mathlib

/-
Verification of the framed block-exchange protocol layer (protocol.go).

The Go code is shallowly embedded as pure Lean functions over an explicit
`Connection` state.  Goroutine channels are modelled as single-shot reply
slots (`ChanRead`), the buffered deflate writer as a latched error flag
`werr` plus a list of successfully enqueued `Frame`s, and the calls the
connection makes on its `Model` receiver as an event log `log`.
External nondeterminism (what the wire delivers next, whether a flush
succeeds, whether a pong arrives before the timeout) is passed in as
explicit parameters.
-/

namespace Proto

/-- Message type codes, from the constant block of protocol.go. -/
def messageTypeIndex : Nat := 1

def messageTypeRequest : Nat := 2

def messageTypeResponse : Nat := 3

def messageTypePing : Nat := 4

def messageTypePong : Nat := 5

def messageTypeIndexUpdate : Nat := 6

/-- BlockInfo: one content-addressed extent of a file. -/
structure BlockInfo where
  length : Nat
  hash : List Nat
  deriving DecidableEq

/-- FileInfo: descriptor of one file version. -/
structure FileInfo where
  name : String
  flags : Nat
  modified : Int
  blocks : List BlockInfo
  deriving DecidableEq

/-- Wire header: version, 12-bit message id, message type. -/
structure Header where
  version : Nat
  msgID : Nat
  msgType : Nat
  deriving DecidableEq

/-- Body of a Request message. -/
structure Request where
  name : String
  offset : Nat
  size : Nat
  hash : List Nat
  deriving DecidableEq

/-- Go error values that the connection layer can surface. -/
inductive GoErr where
  | connClosed
  | codec
  | receiver
  deriving DecidableEq

/-- ErrClosed = errors.New("Connection closed"). -/
def ErrClosed : GoErr := .connClosed

/-- asyncResult: the value sent over a reply channel. -/
structure AsyncResult where
  val : List Nat
  err : Option GoErr
  deriving DecidableEq

/-- What the single read of a reply channel yields: `chClosed` models
`ok = false` after `close(ch)`, `value` models a sent result. -/
inductive ChanRead where
  | chClosed
  | value (res : AsyncResult)
  deriving DecidableEq

/-- A frame successfully enqueued on the compressed writer. -/
inductive Frame where
  | index (msgID : Nat) (msgType : Nat) (entries : List FileInfo)
  | request (msgID : Nat) (r : Request)
  | response (msgID : Nat) (data : List Nat)
  | ping (msgID : Nat)
  | pong (msgID : Nat)
  deriving DecidableEq

/-- An invocation of one of the receiver (Model) methods. -/
inductive Ev where
  | rIndex (nodeID : String) (files : List FileInfo)
  | rIndexUpdate (nodeID : String) (files : List FileInfo)
  | rRequest (nodeID : String) (r : Request)
  | rClose (nodeID : String)
  deriving DecidableEq

/-- The indexSent map, name to last-recorded modified time. -/
def IndexMap : Type := String → Option Int

/-- Go map assignment m[k] = v. -/
def mupd (m : IndexMap) (k : String) (v : Int) : IndexMap :=
  fun n => if n = k then some v else m n

/-- The Connection state.  `awaiting` maps msgID to an index into
`chans`; a `chans` entry of `none` is a still-blocked waiter. -/
structure Connection where
  id : String
  closed : Bool
  awaiting : List (Nat × Nat)
  chans : List (Option ChanRead)
  nextId : Nat
  indexSent : Option IndexMap
  peerLatency : Int
  lastReceive : Nat
  werr : Bool
  frames : List Frame
  log : List Ev

/-- NewConnection: fresh state for a peer node. -/
def newConnection (nodeID : String) : Connection :=
  { id := nodeID
    closed := false
    awaiting := []
    chans := []
    nextId := 0
    indexSent := none
    peerLatency := 0
    lastReceive := 0
    werr := false
    frames := []
    log := [] }

/-- nextId = (nextId + 1) & 0xfff, the id advance in Index, Request and Ping. -/
def advanceId (n : Nat) : Nat := (n + 1) &&& 0xfff

/-- Enqueue a frame on the writer and flush.  With a latched writer error
the write is a no-op that reports failure; otherwise the flush outcome
decides success.  Returns the new state and the success bit. -/
def writeFrame (c : Connection) (fr : Frame) (flushOk : Bool) : Connection × Bool :=
  if c.werr then (c, false)
  else if flushOk then ({ c with frames := c.frames ++ [fr] }, true)
  else ({ c with werr := true }, false)

/-- close(ch) for every channel registered in the pending-call table. -/
def closeAll (aw : List (Nat × Nat)) (cs : List (Option ChanRead)) : List (Option ChanRead) :=
  aw.foldl (fun acc p => acc.set p.2 (some .chClosed)) cs

/-- Connection.close: idempotent shutdown.  Cancels every waiter, empties
the table, and notifies the receiver (logged as `rClose`) exactly when the
closed flag actually transitions. -/
def Connection.close (c : Connection) : Connection :=
  if c.closed then c
  else
    { c with
      closed := true
      chans := closeAll c.awaiting c.chans
      awaiting := []
      log := c.log ++ [.rClose c.id] }

/-- Go map lookup on the pending-call table. -/
def lookupAw (aw : List (Nat × Nat)) (idn : Nat) : Option Nat :=
  match aw with
  | [] => none
  | p :: rest => if p.1 = idn then some p.2 else lookupAw rest idn

/-- Go map assignment on the pending-call table. -/
def setAw (aw : List (Nat × Nat)) (idn ch : Nat) : List (Nat × Nat) :=
  match aw with
  | [] => [(idn, ch)]
  | p :: rest => if p.1 = idn then (idn, ch) :: rest else p :: setAw rest idn ch

/-- Go map delete on the pending-call table. -/
def eraseAw (aw : List (Nat × Nat)) (idn : Nat) : List (Nat × Nat) :=
  aw.filter (fun p => p.1 != idn)

/-- First transmission: indexSent built from the full list, last write wins. -/
def buildIndexSent (idx : List FileInfo) : IndexMap :=
  idx.foldl (fun m f => mupd m f.name f.modified) (fun _ => none)

/-- One iteration of the delta loop in Connection.Index: an entry is added
to the diff, and recorded, iff its name is absent or its modified time
differs from the recorded one. -/
def deltaStep (acc : List FileInfo × IndexMap) (f : FileInfo) : List FileInfo × IndexMap :=
  match acc.2 f.name with
  | none => (acc.1 ++ [f], mupd acc.2 f.name f.modified)
  | some modified =>
    if f.modified ≠ modified then (acc.1 ++ [f], mupd acc.2 f.name f.modified)
    else acc

/-- The delta loop over the whole list. -/
def deltaFold (idx : List FileInfo) (acc : List FileInfo × IndexMap) : List FileInfo × IndexMap :=
  match idx with
  | [] => acc
  | f :: rest => deltaFold rest (deltaStep acc f)

/-- Connection.Index: first call sends a full Index and initializes
indexSent; later calls send only the delta as an IndexUpdate.  The header
is written with the current nextId, the id advances unconditionally, and
a write or flush error closes the connection. -/
def Connection.indexCall (c : Connection) (idx : List FileInfo) (flushOk : Bool) : Connection :=
  match c.indexSent with
  | none =>
    let c1 : Connection := { c with indexSent := some (buildIndexSent idx) }
    let wr := writeFrame c1 (.index c1.nextId messageTypeIndex idx) flushOk
    let c2 : Connection := { wr.1 with nextId := advanceId wr.1.nextId }
    if wr.2 then c2 else c2.close
  | some m =>
    let d := deltaFold idx ([], m)
    let c1 : Connection := { c with indexSent := some d.2 }
    let wr := writeFrame c1 (.index c1.nextId messageTypeIndexUpdate d.1) flushOk
    let c2 : Connection := { wr.1 with nextId := advanceId wr.1.nextId }
    if wr.2 then c2 else c2.close

/-- Connection.Request up to the point where the caller blocks on its
reply channel: registers a fresh channel under nextId, writes the frame,
and on success advances nextId and returns the channel index.  On failure
the connection closes and no channel index is returned (the Go code
returns the error immediately without advancing nextId). -/
def Connection.requestCall (c : Connection) (r : Request) (flushOk : Bool) :
    Connection × Option Nat :=
  if c.closed then (c, none)
  else
    let ch := c.chans.length
    let c1 : Connection :=
      { c with chans := c.chans ++ [none], awaiting := setAw c.awaiting c.nextId ch }
    let wr := writeFrame c1 (.request c1.nextId r) flushOk
    if wr.2 then ({ wr.1 with nextId := advanceId wr.1.nextId }, some ch)
    else (wr.1.close, none)

/-- Connection.Ping up to the point where the caller blocks. -/
def Connection.pingCall (c : Connection) (flushOk : Bool) : Connection × Option Nat :=
  if c.closed then (c, none)
  else
    let ch := c.chans.length
    let c1 : Connection :=
      { c with chans := c.chans ++ [none], awaiting := setAw c.awaiting c.nextId ch }
    let wr := writeFrame c1 (.ping c1.nextId) flushOk
    if wr.2 then ({ wr.1 with nextId := advanceId wr.1.nextId }, some ch)
    else (wr.1.close, none)

/-- What a pending Request caller returns from its single channel read:
`res, ok := <-rc; if !ok return nil, ErrClosed; return res.val, res.err`. -/
def requestResume : ChanRead → List Nat × Option GoErr
  | .chClosed => ([], some ErrClosed)
  | .value res => (res.val, res.err)

/-- The ok bit a pending Ping caller returns from its channel read. -/
def pingResume : ChanRead → Bool
  | .chClosed => false
  | .value _ => true

/-- Reader-loop handling of an inbound Response frame: fulfill and remove
the registered waiter if present, else drop the frame silently. -/
def handleResponse (c : Connection) (msgID : Nat) (data : List Nat) : Connection :=
  match lookupAw c.awaiting msgID with
  | some ch =>
    { c with
      chans := c.chans.set ch (some (.value ⟨data, none⟩))
      awaiting := eraseAw c.awaiting msgID }
  | none => c

/-- Reader-loop handling of an inbound Pong frame. -/
def handlePong (c : Connection) (msgID : Nat) : Connection :=
  match lookupAw c.awaiting msgID with
  | some ch =>
    { c with
      chans := c.chans.set ch (some (.value ⟨[], none⟩))
      awaiting := eraseAw c.awaiting msgID }
  | none => c

/-- Reader-loop handling of an inbound Ping: write back a Pong header
with the same msgID; close on write error. -/
def answerPing (c : Connection) (msgID : Nat) (flushOk : Bool) : Connection :=
  let wr := writeFrame c (.pong msgID) flushOk
  if wr.2 then wr.1 else wr.1.close

/-- The response half of processRequest (the spawned task): the receiver
returned `(data, err)`; the error is dropped (`data, _ :=`) and a Response
frame carrying `data` is written back; close on write error. -/
def processRequestRespond (c : Connection) (msgID : Nat) (data : List Nat)
    (_err : Option GoErr) (flushOk : Bool) : Connection :=
  let wr := writeFrame c (.response msgID data) flushOk
  if wr.2 then wr.1 else wr.1.close

/-- What the wire and the I/O layer supply to one reader-loop iteration:
each `none` body models a latched mreader error for that read. -/
structure WireInput where
  files : Option (List FileInfo)
  req : Option Request
  resp : Option (List Nat)
  flushOk : Bool

/-- Invoke a receiver method (append it to the event log). -/
def Connection.deliver (c : Connection) (e : Ev) : Connection :=
  { c with log := c.log ++ [e] }

/-- One iteration of Connection.readerLoop: `hdr = none` is a header read
error.  A non-zero version or unknown message type closes the connection;
otherwise lastReceive is updated and the frame is dispatched by type. -/
def readerStep (c : Connection) (now : Nat) (hdr : Option Header) (w : WireInput) :
    Connection :=
  match hdr with
  | none => c.close
  | some h =>
    if h.version ≠ 0 then c.close
    else
      let c1 : Connection := { c with lastReceive := now }
      if h.msgType = messageTypeIndex then
        match w.files with
        | none => c1.close
        | some fs => c1.deliver (.rIndex c1.id fs)
      else if h.msgType = messageTypeIndexUpdate then
        match w.files with
        | none => c1.close
        | some fs => c1.deliver (.rIndexUpdate c1.id fs)
      else if h.msgType = messageTypeRequest then
        match w.req with
        | none => c1.close
        | some r => c1.deliver (.rRequest c1.id r)
      else if h.msgType = messageTypeResponse then
        match w.resp with
        | none => c1.close
        | some data => handleResponse c1 h.msgID data
      else if h.msgType = messageTypePing then
        answerPing c1 h.msgID w.flushOk
      else if h.msgType = messageTypePong then
        handlePong c1 h.msgID
      else c1.close

/-- Nanoseconds per second, the unit of Go time.Duration values. -/
def nanosPerSecond : Nat := 1000000000

/-- pingTimeout = 30 * time.Second. -/
def pingTimeout : Nat := 30 * nanosPerSecond

/-- pingIdleTime = 5 * time.Minute. -/
def pingIdleTime : Nat := 5 * 60 * nanosPerSecond

/-- One tick of Connection.pingerLoop, `now` in nanoseconds.  If the idle
threshold is exceeded a ping is initiated (the returned Bool); a pong
within pingTimeout updates the smoothed latency, otherwise the connection
closes. -/
def pingerIteration (c : Connection) (now : Nat) (pongWithinTimeout : Bool) (lat : Int) :
    Connection × Bool :=
  if now - c.lastReceive > pingIdleTime then
    if pongWithinTimeout then
      ({ c with peerLatency := (c.peerLatency + lat) / 2 }, true)
    else (c.close, true)
  else (c, false)

/-- Lookup into the indexSent map of a connection (absent map reads as empty). -/
def indexSentLookup (c : Connection) (n : String) : Option Int :=
  match c.indexSent with
  | some m => m n
  | none => none

/-- True for the receiver methods that deliver frame content (everything
except Close). -/
def Ev.isDelivery : Ev → Bool
  | .rIndex _ _ => true
  | .rIndexUpdate _ _ => true
  | .rRequest _ _ => true
  | .rClose _ => false

/-- Concrete file entries used by the witnesses: a full index with a, b
followed by an updated list that changes b and adds c (spec scenario S4). -/
def exA1 : FileInfo := ⟨"a", 0, 1, []⟩

def exB2 : FileInfo := ⟨"b", 0, 2, []⟩

def exB3 : FileInfo := ⟨"b", 0, 3, []⟩

def exC4 : FileInfo := ⟨"c", 0, 4, []⟩

/-- A connection that has already sent the full index with a, b. -/
def exConn1 : Connection := (newConnection "peer").indexCall [exA1, exB2] true

/-! ### Helper lemmas -/

/-- The bitwise id advance is addition modulo 4096. -/
theorem advanceId_eq_mod (n : Nat) : advanceId n = (n + 1) % 4096 := by
  have h := Nat.and_pow_two_sub_one_eq_mod (n + 1) 12
  norm_num at h
  simpa [advanceId] using h

theorem advanceId_le (n : Nat) : advanceId n ≤ 0xfff := by
  exact Nat.and_le_right

theorem advanceId_iterate (k n : Nat) : advanceId^[k] ((n : Nat) % 4096) = (n + k) % 4096 := by
  induction k with
  | zero => simp
  | succ k ih =>
    rw [Function.iterate_succ_apply', ih, advanceId_eq_mod, Nat.mod_add_mod]
    omega

/-- Close on an already-closed connection is the identity. -/
theorem close_of_closed (c : Connection) (h : c.closed = true) : c.close = c := by
  simp [Connection.close, h]

theorem close_closed_flag (c : Connection) : (c.close).closed = true := by
  by_cases h : c.closed
  · simp [Connection.close, h]
  · simp [Connection.close, h]

/-- closeAll leaves a slot already set to `chClosed` set to `chClosed`. -/
theorem closeAll_preserves_closed (aw : List (Nat × Nat)) (cs : List (Option ChanRead))
    (ch : Nat) (h : cs[ch]? = some (some .chClosed)) :
    (closeAll aw cs)[ch]? = some (some .chClosed) := by
  induction aw generalizing cs with
  | nil => simpa [closeAll] using h
  | cons p rest ih =>
    show (closeAll rest (cs.set p.2 (some .chClosed)))[ch]? = some (some .chClosed)
    apply ih
    by_cases hpc : p.2 = ch
    · subst hpc
      have hlt : p.2 < cs.length := by
        by_contra hge
        rw [List.getElem?_eq_none (Nat.le_of_not_lt hge)] at h
        exact Option.noConfusion h
      rw [List.getElem?_set_self hlt]
    · rw [List.getElem?_set_ne hpc]
      exact h

theorem closeAll_length (aw : List (Nat × Nat)) (cs : List (Option ChanRead)) :
    (closeAll aw cs).length = cs.length := by
  induction aw generalizing cs with
  | nil => rfl
  | cons p rest ih =>
    show (closeAll rest (cs.set p.2 (some .chClosed))).length = cs.length
    rw [ih, List.length_set]

/-- Every slot registered in the table is `chClosed` after closeAll. -/
theorem closeAll_mem (aw : List (Nat × Nat)) (cs : List (Option ChanRead))
    (idn ch : Nat) (hm : (idn, ch) ∈ aw) (hch : ch < cs.length) :
    (closeAll aw cs)[ch]? = some (some .chClosed) := by
  induction aw generalizing cs with
  | nil => cases hm
  | cons p rest ih =>
    show (closeAll rest (cs.set p.2 (some .chClosed)))[ch]? = some (some .chClosed)
    rcases List.mem_cons.mp hm with heq | htl
    · have hpc : p.2 = ch := by rw [← heq]
      subst hpc
      apply closeAll_preserves_closed
      rw [List.getElem?_set_self hch]
    · exact ih (cs.set p.2 (some .chClosed)) htl (by rw [List.length_set]; exact hch)

/-- Lookup of an erased key fails. -/
theorem lookupAw_eraseAw (aw : List (Nat × Nat)) (idn : Nat) :
    lookupAw (eraseAw aw idn) idn = none := by
  induction aw with
  | nil => rfl
  | cons p rest ih =>
    by_cases hp : p.1 = idn
    · simpa [eraseAw, List.filter_cons, hp] using ih
    · simpa [eraseAw, List.filter_cons, hp, lookupAw] using ih

/-- Erasing one key does not disturb lookups of other keys. -/
theorem lookupAw_eraseAw_ne (aw : List (Nat × Nat)) (idn j : Nat) (hne : j ≠ idn) :
    lookupAw (eraseAw aw idn) j = lookupAw aw j := by
  induction aw with
  | nil => rfl
  | cons p rest ih =>
    have hij : ¬idn = j := fun h => hne h.symm
    by_cases hp : p.1 = idn
    · have hpj : ¬p.1 = j := by rw [hp]; exact hij
      simpa [eraseAw, List.filter_cons, hp, lookupAw, hpj, hij] using ih
    · by_cases hpj : p.1 = j
      · simp [eraseAw, List.filter_cons, hp, lookupAw, hpj, hne]
      · simpa [eraseAw, List.filter_cons, hp, lookupAw, hpj, hij] using ih

theorem mupd_eq (m : IndexMap) (k : String) (v : Int) : mupd m k v k = some v := by
  simp [mupd]

theorem mupd_ne (m : IndexMap) (k : String) (v : Int) (n : String) (h : n ≠ k) :
    mupd m k v n = m n := by
  simp [mupd, h]

/-- A fold of map assignments does not change names it never assigns. -/
theorem foldlUpd_not_mem (idx : List FileInfo) (m : IndexMap) (n : String)
    (hn : n ∉ idx.map FileInfo.name) :
    (idx.foldl (fun m f => mupd m f.name f.modified) m) n = m n := by
  induction idx generalizing m with
  | nil => rfl
  | cons f rest ih =>
    simp only [List.map_cons, List.mem_cons, not_or] at hn
    rw [List.foldl_cons, ih _ hn.2, mupd_ne _ _ _ _ hn.1]

/-- With distinct names, the fold of assignments records each entry. -/
theorem foldlUpd_mem (idx : List FileInfo) (m : IndexMap)
    (hnd : (idx.map FileInfo.name).Nodup) (f : FileInfo) (hf : f ∈ idx) :
    (idx.foldl (fun m f => mupd m f.name f.modified) m) f.name = some f.modified := by
  induction idx generalizing m with
  | nil => cases hf
  | cons g rest ih =>
    rw [List.map_cons, List.nodup_cons] at hnd
    rcases List.mem_cons.mp hf with rfl | htl
    · rw [List.foldl_cons, foldlUpd_not_mem rest _ f.name hnd.1, mupd_eq]
    · rw [List.foldl_cons]
      exact ih _ hnd.2 htl

theorem buildIndexSent_mem (idx : List FileInfo)
    (hnd : (idx.map FileInfo.name).Nodup) (f : FileInfo) (hf : f ∈ idx) :
    buildIndexSent idx f.name = some f.modified :=
  foldlUpd_mem idx _ hnd f hf

theorem buildIndexSent_not_mem (idx : List FileInfo) (n : String)
    (hn : n ∉ idx.map FileInfo.name) : buildIndexSent idx n = none :=
  foldlUpd_not_mem idx _ n hn

/-- One delta step, written as a single conditional: include and record
an entry iff the recorded modified time is not its own. -/
theorem deltaStep_eq (d0 : List FileInfo) (mm : IndexMap) (f : FileInfo) :
    deltaStep (d0, mm) f =
      if mm f.name = some f.modified then (d0, mm)
      else (d0 ++ [f], mupd mm f.name f.modified) := by
  by_cases h : mm f.name = some f.modified
  · simp [deltaStep, h]
  · cases hm : mm f.name with
    | none => simp [deltaStep, hm, h]
    | some v =>
      have hv : f.modified ≠ v := by
        rintro rfl
        exact h hm
      rw [hm] at h
      simp [deltaStep, hm, hv, h]

/-- The delta loop never touches names outside the list. -/
theorem deltaFold_snd_not_mem (idx : List FileInfo) (d0 : List FileInfo) (mm : IndexMap)
    (n : String) (hn : n ∉ idx.map FileInfo.name) :
    (deltaFold idx (d0, mm)).2 n = mm n := by
  induction idx generalizing d0 mm with
  | nil => rfl
  | cons f rest ih =>
    simp only [List.map_cons, List.mem_cons, not_or] at hn
    show (deltaFold rest (deltaStep (d0, mm) f)).2 n = mm n
    rw [deltaStep_eq]
    by_cases hc : mm f.name = some f.modified
    · rw [if_pos hc]
      exact ih d0 mm hn.2
    · rw [if_neg hc]
      rw [ih _ _ hn.2, mupd_ne _ _ _ _ hn.1]

/-- With distinct names, after the delta loop every entry of the list is
recorded with its own modified time (the delta entries were just
assigned, the others already carried it). -/
theorem deltaFold_snd_mem (idx : List FileInfo) (d0 : List FileInfo) (mm : IndexMap)
    (hnd : (idx.map FileInfo.name).Nodup) (f : FileInfo) (hf : f ∈ idx) :
    (deltaFold idx (d0, mm)).2 f.name = some f.modified := by
  induction idx generalizing d0 mm with
  | nil => cases hf
  | cons g rest ih =>
    rw [List.map_cons, List.nodup_cons] at hnd
    rcases List.mem_cons.mp hf with rfl | htl
    · show (deltaFold rest (deltaStep (d0, mm) f)).2 f.name = some f.modified
      rw [deltaStep_eq]
      by_cases hc : mm f.name = some f.modified
      · rw [if_pos hc, deltaFold_snd_not_mem rest d0 mm f.name hnd.1]
        exact hc
      · rw [if_neg hc, deltaFold_snd_not_mem rest _ _ f.name hnd.1, mupd_eq]
    · show (deltaFold rest (deltaStep (d0, mm) g)).2 f.name = some f.modified
      rw [deltaStep_eq]
      by_cases hc : mm g.name = some g.modified
      · rw [if_pos hc]
        exact ih d0 mm hnd.2 htl
      · rw [if_neg hc]
        exact ih _ _ hnd.2 htl

/-- With distinct names, the transmitted delta is exactly the filter of
the list by "absent or modified differs", in list order. -/
theorem deltaFold_fst (idx : List FileInfo) (d0 : List FileInfo) (mm : IndexMap)
    (hnd : (idx.map FileInfo.name).Nodup) :
    (deltaFold idx (d0, mm)).1 =
      d0 ++ idx.filter (fun f => decide (¬mm f.name = some f.modified)) := by
  induction idx generalizing d0 mm with
  | nil => simp [deltaFold]
  | cons f rest ih =>
    rw [List.map_cons, List.nodup_cons] at hnd
    have hrest : ∀ g ∈ rest, g.name ≠ f.name := by
      intro g hg he
      exact hnd.1 (he ▸ List.mem_map_of_mem FileInfo.name hg)
    show (deltaFold rest (deltaStep (d0, mm) f)).1 = _
    rw [deltaStep_eq, List.filter_cons]
    by_cases hc : mm f.name = some f.modified
    · rw [if_pos hc, ih _ _ hnd.2]
      simp [hc]
    · rw [if_neg hc]
      have hfc : List.filter
          (fun g => decide (¬(mupd mm f.name f.modified) g.name = some g.modified)) rest =
          List.filter (fun g => decide (¬mm g.name = some g.modified)) rest :=
        List.filter_congr (fun g hg => by
          rw [mupd_ne mm f.name f.modified g.name (hrest g hg)])
      rw [ih _ _ hnd.2, hfc]
      simp [hc]

/-- If no entry changed, the delta loop leaves diff and map untouched. -/
theorem deltaFold_unchanged : ∀ (idx : List FileInfo) (d0 : List FileInfo) (mm : IndexMap),
    (∀ f ∈ idx, mm f.name = some f.modified) → deltaFold idx (d0, mm) = (d0, mm)
  | [], _, _, _ => rfl
  | f :: rest, d0, mm, h => by
    show deltaFold rest (deltaStep (d0, mm) f) = _
    rw [deltaStep_eq, if_pos (h f (List.mem_cons_self f rest))]
    exact deltaFold_unchanged rest d0 mm (fun g hg => h g (List.mem_cons_of_mem f hg))

theorem close_indexSent (c : Connection) : (c.close).indexSent = c.indexSent := by
  simp only [Connection.close]
  split_ifs <;> rfl

theorem writeFrame_indexSent (c : Connection) (fr : Frame) (fOk : Bool) :
    (writeFrame c fr fOk).1.indexSent = c.indexSent := by
  simp only [writeFrame]
  split_ifs <;> rfl

/-- A successful write on a healthy writer just appends the frame. -/
theorem writeFrame_success (c : Connection) (fr : Frame) (hw : c.werr = false) :
    writeFrame c fr true = ({ c with frames := c.frames ++ [fr] }, true) := by
  simp [writeFrame, hw]

/-- Connection.Index on a healthy connection, first call: full state shape. -/
theorem indexCall_success_none (c : Connection) (idx : List FileInfo)
    (hw : c.werr = false) (hs : c.indexSent = none) :
    c.indexCall idx true =
      { c with
        indexSent := some (buildIndexSent idx)
        frames := c.frames ++ [.index c.nextId messageTypeIndex idx]
        nextId := advanceId c.nextId } := by
  simp [Connection.indexCall, hs, writeFrame, hw]

/-- Connection.Index on a healthy connection, subsequent call: full state shape. -/
theorem indexCall_success_some (c : Connection) (idx : List FileInfo) (m : IndexMap)
    (hw : c.werr = false) (hs : c.indexSent = some m) :
    c.indexCall idx true =
      { c with
        indexSent := some (deltaFold idx ([], m)).2
        frames := c.frames ++
          [.index c.nextId messageTypeIndexUpdate (deltaFold idx ([], m)).1]
        nextId := advanceId c.nextId } := by
  simp [Connection.indexCall, hs, writeFrame, hw]

/-- Whatever the write outcome, Index records the same indexSent map. -/
theorem indexCall_indexSent (c : Connection) (idx : List FileInfo) (fOk : Bool) :
    (c.indexCall idx fOk).indexSent =
      (match c.indexSent with
       | none => some (buildIndexSent idx)
       | some m => some (deltaFold idx ([], m)).2) := by
  cases hs : c.indexSent with
  | none =>
    simp only [Connection.indexCall, hs]
    split
    · rw [writeFrame_indexSent]
    · rw [close_indexSent, writeFrame_indexSent]
  | some m =>
    simp only [Connection.indexCall, hs]
    split
    · rw [writeFrame_indexSent]
    · rw [close_indexSent, writeFrame_indexSent]

/-- The delta of a list against a map that already records it is empty. -/
theorem deltaFold_self_empty (idx : List FileInfo) (mm : IndexMap)
    (h : ∀ f ∈ idx, mm f.name = some f.modified) :
    (deltaFold idx ([], mm)).1 = [] := by
  rw [deltaFold_unchanged idx [] mm h]

theorem handleResponse_indexSent (c : Connection) (msgID : Nat) (data : List Nat) :
    (handleResponse c msgID data).indexSent = c.indexSent := by
  unfold handleResponse
  split <;> rfl

theorem handlePong_indexSent (c : Connection) (msgID : Nat) :
    (handlePong c msgID).indexSent = c.indexSent := by
  unfold handlePong
  split <;> rfl

theorem answerPing_indexSent (c : Connection) (msgID : Nat) (fOk : Bool) :
    (answerPing c msgID fOk).indexSent = c.indexSent := by
  unfold answerPing
  dsimp only
  split
  · rw [writeFrame_indexSent]
  · rw [close_indexSent, writeFrame_indexSent]

/-- The reader loop never touches the outgoing indexSent map. -/
theorem readerStep_indexSent (c : Connection) (now : Nat) (hdr : Option Header)
    (w : WireInput) : (readerStep c now hdr w).indexSent = c.indexSent := by
  cases hdr with
  | none => exact close_indexSent c
  | some h =>
    unfold readerStep
    dsimp only
    split_ifs
    all_goals try exact close_indexSent _
    all_goals try split
    all_goals first
      | exact close_indexSent _
      | rfl
      | exact handleResponse_indexSent _ _ _
      | exact handlePong_indexSent _ _
      | exact answerPing_indexSent _ _ _

theorem requestCall_indexSent (c : Connection) (r : Request) (fOk : Bool) :
    ((c.requestCall r fOk).1).indexSent = c.indexSent := by
  unfold Connection.requestCall
  dsimp only
  split_ifs
  · rfl
  · simp only [writeFrame_indexSent]
  · simp only [close_indexSent, writeFrame_indexSent]

theorem pingCall_indexSent (c : Connection) (fOk : Bool) :
    ((c.pingCall fOk).1).indexSent = c.indexSent := by
  unfold Connection.pingCall
  dsimp only
  split_ifs
  · rfl
  · simp only [writeFrame_indexSent]
  · simp only [close_indexSent, writeFrame_indexSent]

/-- Index on a healthy connection keeps the writer healthy when the flush
succeeds. -/
theorem indexCall_werr (c : Connection) (idx : List FileInfo) (hw : c.werr = false) :
    (c.indexCall idx true).werr = false := by
  cases hs : c.indexSent with
  | none =>
    rw [indexCall_success_none c idx hw hs]
    exact hw
  | some m =>
    rw [indexCall_success_some c idx m hw hs]
    exact hw

/-- Index against a map that already records the whole list writes an
IndexUpdate frame carrying zero entries. -/
theorem indexCall_repeat_empty (s : Connection) (idx : List FileInfo)
    (hw : s.werr = false) (m : IndexMap) (hs : s.indexSent = some m)
    (hall : ∀ f ∈ idx, m f.name = some f.modified) :
    (s.indexCall idx true).frames =
      s.frames ++ [.index s.nextId messageTypeIndexUpdate []] := by
  rw [indexCall_success_some s idx m hw hs]
  simp [deltaFold_self_empty idx m hall]

theorem handleResponse_miss (c : Connection) (msgID : Nat) (data : List Nat)
    (h : lookupAw c.awaiting msgID = none) : handleResponse c msgID data = c := by
  unfold handleResponse
  rw [h]

theorem handlePong_miss (c : Connection) (msgID : Nat)
    (h : lookupAw c.awaiting msgID = none) : handlePong c msgID = c := by
  unfold handlePong
  rw [h]

/-- Closing a connection adds no delivery event to the receiver log. -/
theorem close_filter_delivery (c : Connection) :
    (c.close).log.filter Ev.isDelivery = c.log.filter Ev.isDelivery := by
  unfold Connection.close
  split_ifs
  · rfl
  · simp [List.filter_append, Ev.isDelivery]

/-! ### Claim theorems -/

/-- Claim C6: nextID advances by exactly one modulo 4096 after each
successfully written correlated message (Request and Ping), after 4096
advances any starting value in range returns to itself, and the advance
always lands in 0..=0xFFF. -/
theorem claim6_nextId_wrap (c : Connection) (r : Request)
    (hcl : c.closed = false) (hw : c.werr = false) :
    ((c.requestCall r true).1.nextId = (c.nextId + 1) % 4096) ∧
    ((c.pingCall true).1.nextId = (c.nextId + 1) % 4096) ∧
    (∀ n : Nat, advanceId n ≤ 0xfff) ∧
    (∀ n : Nat, n ≤ 0xfff → advanceId^[4096] n = n) := by
  refine ⟨?_, ?_, fun n => advanceId_le n, fun n hn => ?_⟩
  · simp [Connection.requestCall, writeFrame, hcl, hw, advanceId_eq_mod]
  · simp [Connection.pingCall, writeFrame, hcl, hw, advanceId_eq_mod]
  · have hlt : n < 4096 := by omega
    have hmod : n % 4096 = n := Nat.mod_eq_of_lt hlt
    calc advanceId^[4096] n = advanceId^[4096] (n % 4096) := by rw [hmod]
    _ = (n + 4096) % 4096 := advanceId_iterate 4096 n
    _ = n := by omega

/-- Claim C6 witness at a fresh connection. -/
theorem claim6_nextId_wrap_witness :
    ((newConnection "n").requestCall ⟨"f", 0, 4, [1]⟩ true).1.nextId = 1 := by
  have h := claim6_nextId_wrap (newConnection "n") ⟨"f", 0, 4, [1]⟩ rfl rfl
  simpa using h.1

/-- Claim C3: close is idempotent.  On a not-yet-closed connection one
close call flips the flag and notifies the receiver exactly once (the log
grows by exactly the one rClose entry, which also cancels-and-empties the
waiter table exactly once since later calls change nothing); any further
close is the identity, so n+1 calls equal one call. -/
theorem claim3_close_idempotent (c : Connection) (hcl : c.closed = false) :
    (c.close).closed = true ∧
    (c.close).log = c.log ++ [.rClose c.id] ∧
    (∀ c' : Connection, c'.closed = true → c'.close = c') ∧
    (∀ n : Nat, Connection.close^[n + 1] c = c.close) := by
  refine ⟨close_closed_flag c, ?_, fun c' h => close_of_closed c' h, ?_⟩
  · simp [Connection.close, hcl]
  · intro n
    induction n with
    | zero => rfl
    | succ n ih =>
      rw [Function.iterate_succ_apply', ih,
        close_of_closed _ (close_closed_flag c)]

/-- Claim C3 witness: two closes on a fresh connection equal one. -/
theorem claim3_close_idempotent_witness :
    Connection.close^[2] (newConnection "peer") = (newConnection "peer").close := by
  exact (claim3_close_idempotent (newConnection "peer") rfl).2.2.2 1

/-- Claim C2: after close on an open connection, every pending call's
reply slot is resolved to the channel-closed read (so no caller stays
blocked and each caller's single read happens exactly once), a pending
Request then returns ErrClosed, a pending Ping returns ok = false, and
the pending-call table is emptied. -/
theorem claim2_close_cancels (c : Connection) (idn ch : Nat)
    (hcl : c.closed = false) (hp : (idn, ch) ∈ c.awaiting) (hch : ch < c.chans.length) :
    (c.close).awaiting = [] ∧
    (c.close).chans[ch]? = some (some .chClosed) ∧
    requestResume .chClosed = ([], some ErrClosed) ∧
    pingResume .chClosed = false := by
  refine ⟨?_, ?_, rfl, rfl⟩
  · simp [Connection.close, hcl]
  · simp only [Connection.close, hcl, Bool.false_eq_true, if_false]
    exact closeAll_mem c.awaiting c.chans idn ch hp hch

/-- Claim C2 witness: a connection with one pending call at msgID 5. -/
theorem claim2_close_cancels_witness :
    ({ newConnection "n" with awaiting := [(5, 0)], chans := [none] } : Connection).close.awaiting
      = [] ∧
    ({ newConnection "n" with awaiting := [(5, 0)], chans := [none] } : Connection).close.chans[0]?
      = some (some .chClosed) := by
  have h := claim2_close_cancels
    { newConnection "n" with awaiting := [(5, 0)], chans := [none] } 5 0
    rfl (by decide) (by decide)
  exact ⟨h.1, h.2.1⟩

/-- Claim C1: for a list with distinct names on a healthy connection, the
first Index call transmits a full Index frame with every entry and records
each entry's modified time; a later call transmits an IndexUpdate frame
containing exactly the entries whose name is absent from indexSent or
whose modified time differs, records the new modified time for every
entry of the list (which updates exactly the delta entries, the others
already carrying their value), and leaves all other names untouched. -/
theorem claim1_index_delta (c : Connection) (idx : List FileInfo)
    (hnd : (idx.map FileInfo.name).Nodup) (hw : c.werr = false) :
    (c.indexSent = none →
      (c.indexCall idx true).frames =
        c.frames ++ [.index c.nextId messageTypeIndex idx] ∧
      ∀ f ∈ idx, indexSentLookup (c.indexCall idx true) f.name = some f.modified) ∧
    (∀ m : IndexMap, c.indexSent = some m →
      (c.indexCall idx true).frames =
        c.frames ++ [.index c.nextId messageTypeIndexUpdate
          (idx.filter (fun f => decide (¬m f.name = some f.modified)))] ∧
      (∀ f ∈ idx, indexSentLookup (c.indexCall idx true) f.name = some f.modified) ∧
      (∀ n, n ∉ idx.map FileInfo.name → indexSentLookup (c.indexCall idx true) n = m n)) := by
  constructor
  · intro hs
    rw [indexCall_success_none c idx hw hs]
    refine ⟨rfl, fun f hf => ?_⟩
    simpa [indexSentLookup] using buildIndexSent_mem idx hnd f hf
  · intro m hs
    rw [indexCall_success_some c idx m hw hs]
    refine ⟨?_, fun f hf => ?_, fun n hn => ?_⟩
    · rw [deltaFold_fst idx [] m hnd]
      simp
    · simpa [indexSentLookup] using deltaFold_snd_mem idx [] m hnd f hf
    · simpa [indexSentLookup] using deltaFold_snd_not_mem idx [] m n hn

/-- Claim C1 witness, the spec's delta scenario: after a full index with
a:1, b:2, sending a:1, b:3, c:4 emits an IndexUpdate containing exactly
b:3 and c:4. -/
theorem claim1_index_delta_witness :
    (exConn1.indexCall [exA1, exB3, exC4] true).frames =
      exConn1.frames ++
        [.index exConn1.nextId messageTypeIndexUpdate [exB3, exC4]] := by
  have h := (claim1_index_delta exConn1 [exA1, exB3, exC4] (by decide) rfl).2
    (buildIndexSent [exA1, exB2]) rfl
  rw [h.1]
  decide

/-- Claim C10: every Index call on an open healthy connection writes
exactly one frame and advances nextId by one modulo 4096, even when the
delta is empty; in particular a repeated Index with an unchanged list
still transmits an IndexUpdate frame with zero entries, from the same id
counter that Request and Ping use. -/
theorem claim10_index_always_writes (c : Connection) (idx : List FileInfo)
    (hcl : c.closed = false) (hw : c.werr = false)
    (hnd : (idx.map FileInfo.name).Nodup) :
    (c.indexCall idx true).frames.length = c.frames.length + 1 ∧
    (c.indexCall idx true).nextId = (c.nextId + 1) % 4096 ∧
    (∀ m : IndexMap, c.indexSent = some m →
      (∀ f ∈ idx, m f.name = some f.modified) →
      (c.indexCall idx true).frames =
        c.frames ++ [.index c.nextId messageTypeIndexUpdate []]) ∧
    ((c.indexCall idx true).indexCall idx true).frames =
      (c.indexCall idx true).frames ++
        [.index (c.indexCall idx true).nextId messageTypeIndexUpdate []] := by
  refine ⟨?_, ?_, fun m hm hunch => indexCall_repeat_empty c idx hw m hm hunch, ?_⟩
  · cases hs : c.indexSent with
    | none =>
      rw [indexCall_success_none c idx hw hs]
      simp
    | some m =>
      rw [indexCall_success_some c idx m hw hs]
      simp
  · cases hs : c.indexSent with
    | none =>
      rw [indexCall_success_none c idx hw hs]
      simp [advanceId_eq_mod]
    | some m =>
      rw [indexCall_success_some c idx m hw hs]
      simp [advanceId_eq_mod]
  · cases hs : c.indexSent with
    | none =>
      exact indexCall_repeat_empty (c.indexCall idx true) idx
        (indexCall_werr c idx hw) (buildIndexSent idx)
        (by rw [indexCall_indexSent, hs])
        (fun f hf => buildIndexSent_mem idx hnd f hf)
    | some m =>
      exact indexCall_repeat_empty (c.indexCall idx true) idx
        (indexCall_werr c idx hw) ((deltaFold idx ([], m)).2)
        (by rw [indexCall_indexSent, hs])
        (fun f hf => deltaFold_snd_mem idx [] m hnd f hf)

/-- Claim C10 witness: a second Index with the unchanged single-entry
list writes an IndexUpdate frame with zero entries. -/
theorem claim10_index_always_writes_witness :
    (((newConnection "w").indexCall [exA1] true).indexCall [exA1] true).frames =
      ((newConnection "w").indexCall [exA1] true).frames ++
        [.index ((newConnection "w").indexCall [exA1] true).nextId
          messageTypeIndexUpdate []] :=
  (claim10_index_always_writes (newConnection "w") [exA1] rfl rfl (by decide)).2.2.2

/-- Claim C4 counterexample: when the write of the very first index frame
fails (failed flush, so the frame never reaches the peer and the
connection closes), Index has already recorded the entry's name in
indexSent and does not roll it back, so indexSent does not contain only
successfully transmitted names. -/
theorem claim4_counterexample :
    ((newConnection "peer").indexCall [exA1] false).frames = [] ∧
    ((newConnection "peer").indexCall [exA1] false).closed = true ∧
    indexSentLookup ((newConnection "peer").indexCall [exA1] false) "a" = some 1 := by
  refine ⟨rfl, rfl, ?_⟩
  decide

/-- Claim C4 amended: after an Index call, indexSent contains exactly the
names offered to the first call or selected as delta entries of later
calls together with the previously recorded names — every entry of the
list is mapped to its modified time, and every other name keeps exactly
its previous lookup value (so no name appears from nowhere, no untouched
value changes, and no name is removed), regardless of whether the frame
was successfully enqueued; no other operation touches indexSent. -/
theorem claim4_indexSent_accumulates (c : Connection) (idx : List FileInfo)
    (fOk : Bool) (hnd : (idx.map FileInfo.name).Nodup) :
    (∀ f ∈ idx, indexSentLookup (c.indexCall idx fOk) f.name = some f.modified) ∧
    (∀ n, n ∉ idx.map FileInfo.name →
      indexSentLookup (c.indexCall idx fOk) n = indexSentLookup c n) ∧
    (∀ now hdr w, (readerStep c now hdr w).indexSent = c.indexSent) ∧
    (∀ r fOk2, ((c.requestCall r fOk2).1).indexSent = c.indexSent) ∧
    (∀ fOk2, ((c.pingCall fOk2).1).indexSent = c.indexSent) ∧
    (c.close).indexSent = c.indexSent := by
  refine ⟨?_, ?_,
    fun now hdr w => readerStep_indexSent c now hdr w,
    fun r fOk2 => requestCall_indexSent c r fOk2,
    fun fOk2 => pingCall_indexSent c fOk2,
    close_indexSent c⟩
  · intro f hf
    rw [indexSentLookup, indexCall_indexSent]
    cases hs : c.indexSent with
    | none => exact buildIndexSent_mem idx hnd f hf
    | some m => exact deltaFold_snd_mem idx [] m hnd f hf
  · intro n hmem
    rw [indexSentLookup, indexCall_indexSent]
    cases hs : c.indexSent with
    | none =>
      show buildIndexSent idx n = indexSentLookup c n
      rw [buildIndexSent_not_mem idx n hmem, indexSentLookup, hs]
    | some m =>
      show (deltaFold idx ([], m)).2 n = indexSentLookup c n
      rw [deltaFold_snd_not_mem idx [] m n hmem, indexSentLookup, hs]

/-- Claim C4 amended witness: even when the write fails, the name is
recorded with its modified time. -/
theorem claim4_indexSent_accumulates_witness :
    indexSentLookup ((newConnection "peer").indexCall [exA1] false) "a" = some 1 := by
  have h := (claim4_indexSent_accumulates (newConnection "peer") [exA1] false
    (by decide)).1 exA1 (by decide)
  simpa [exA1] using h

/-- Claim C5: an inbound Response or Pong whose msgID has a registered
pending call fulfills that call's reply slot with exactly the frame's
payload and removes the entry (so a duplicate of the same frame finds no
entry and changes nothing, and other entries are untouched); an inbound
Response or Pong with no registered entry is dropped silently with no
state change. -/
theorem claim5_response_matching (c : Connection) (msgID : Nat) (data : List Nat) :
    (∀ ch, lookupAw c.awaiting msgID = some ch → ch < c.chans.length →
      (handleResponse c msgID data).chans[ch]? = some (some (.value ⟨data, none⟩)) ∧
      lookupAw (handleResponse c msgID data).awaiting msgID = none ∧
      (∀ j, j ≠ msgID → lookupAw (handleResponse c msgID data).awaiting j =
        lookupAw c.awaiting j) ∧
      requestResume (.value ⟨data, none⟩) = (data, none) ∧
      handleResponse (handleResponse c msgID data) msgID data =
        handleResponse c msgID data ∧
      (handlePong c msgID).chans[ch]? = some (some (.value ⟨[], none⟩)) ∧
      lookupAw (handlePong c msgID).awaiting msgID = none ∧
      handlePong (handlePong c msgID) msgID = handlePong c msgID) ∧
    (lookupAw c.awaiting msgID = none →
      handleResponse c msgID data = c ∧ handlePong c msgID = c) := by
  constructor
  · intro ch hlk hlt
    have h1 : handleResponse c msgID data =
        { c with
          chans := c.chans.set ch (some (.value ⟨data, none⟩))
          awaiting := eraseAw c.awaiting msgID } := by
      unfold handleResponse
      rw [hlk]
    have h2 : handlePong c msgID =
        { c with
          chans := c.chans.set ch (some (.value ⟨[], none⟩))
          awaiting := eraseAw c.awaiting msgID } := by
      unfold handlePong
      rw [hlk]
    refine ⟨?_, ?_, ?_, rfl, ?_, ?_, ?_, ?_⟩
    · rw [h1]
      exact List.getElem?_set_self hlt
    · rw [h1]
      exact lookupAw_eraseAw c.awaiting msgID
    · intro j hj
      rw [h1]
      exact lookupAw_eraseAw_ne c.awaiting msgID j hj
    · apply handleResponse_miss
      rw [h1]
      exact lookupAw_eraseAw c.awaiting msgID
    · rw [h2]
      exact List.getElem?_set_self hlt
    · rw [h2]
      exact lookupAw_eraseAw c.awaiting msgID
    · apply handlePong_miss
      rw [h2]
      exact lookupAw_eraseAw c.awaiting msgID
  · intro hmiss
    exact ⟨handleResponse_miss c msgID data hmiss, handlePong_miss c msgID hmiss⟩

/-- Claim C5 witness: a Response for the one pending call at msgID 5
fulfills its slot with the payload. -/
theorem claim5_response_matching_witness :
    (handleResponse { newConnection "n" with awaiting := [(5, 0)], chans := [none] }
      5 [7]).chans[0]? = some (some (.value ⟨[7], none⟩)) :=
  ((claim5_response_matching
    { newConnection "n" with awaiting := [(5, 0)], chans := [none] } 5 [7]).1
    0 rfl (by decide)).1

/-- Claim C7: a header with non-zero version or an unknown message type
closes the connection, and the receiver log gains no Index, IndexUpdate
or Request delivery from that frame (only a possible Close notification). -/
theorem claim7_bad_frame (c : Connection) (now : Nat) (h : Header) (w : WireInput)
    (hbad : h.version ≠ 0 ∨
      h.msgType ∉ [messageTypeIndex, messageTypeRequest, messageTypeResponse,
        messageTypePing, messageTypePong, messageTypeIndexUpdate]) :
    (readerStep c now (some h) w).closed = true ∧
    (readerStep c now (some h) w).log.filter Ev.isDelivery =
      c.log.filter Ev.isDelivery := by
  by_cases hv : h.version ≠ 0
  · have hr : readerStep c now (some h) w = c.close := by
      unfold readerStep
      dsimp only
      rw [if_pos hv]
    rw [hr]
    exact ⟨close_closed_flag c, close_filter_delivery c⟩
  · have ht : h.msgType ∉ [messageTypeIndex, messageTypeRequest, messageTypeResponse,
        messageTypePing, messageTypePong, messageTypeIndexUpdate] := by
      rcases hbad with hv' | ht
      · exact absurd hv' hv
      · exact ht
    simp only [List.mem_cons, List.not_mem_nil, or_false, not_or] at ht
    obtain ⟨ht1, ht2, ht3, ht4, ht5, ht6⟩ := ht
    have hr : readerStep c now (some h) w =
        ({ c with lastReceive := now } : Connection).close := by
      unfold readerStep
      dsimp only
      rw [if_neg hv, if_neg ht1, if_neg ht6, if_neg ht2, if_neg ht3, if_neg ht4,
        if_neg ht5]
    rw [hr]
    exact ⟨close_closed_flag _, close_filter_delivery _⟩

/-- Claim C7 witness: a version-1 header closes without any delivery. -/
theorem claim7_bad_frame_witness :
    (readerStep (newConnection "n") 0 (some ⟨1, 0, messageTypeIndex⟩)
      ⟨some [], none, none, true⟩).closed = true :=
  (claim7_bad_frame (newConnection "n") 0 ⟨1, 0, messageTypeIndex⟩
    ⟨some [], none, none, true⟩ (Or.inl (by decide))).1

/-- Claim C8 counterexample: the receiver answers a request with data and
an error; the code drops only the error and transmits the data as is, so
the Response body written back is not empty. -/
theorem claim8_counterexample :
    (processRequestRespond (newConnection "n") 7 [170] (some .receiver) true).frames =
      [Frame.response 7 [170]] ∧ ([170] : List Nat) ≠ [] := by
  constructor
  · rfl
  · decide

/-- Claim C8 amended: for every inbound Request, the error returned by
the receiver is discarded — the written Response does not depend on it —
and the peer is sent a Response frame whose body is exactly the data
value the receiver returned (empty precisely when the receiver returns
empty data alongside its error); the wire carries no error indication. -/
theorem claim8_response_discards_error (c : Connection) (msgID : Nat)
    (data : List Nat) (e1 e2 : Option GoErr) (hw : c.werr = false) :
    processRequestRespond c msgID data e1 true =
      processRequestRespond c msgID data e2 true ∧
    (processRequestRespond c msgID data e1 true).frames =
      c.frames ++ [.response msgID data] := by
  constructor
  · rfl
  · simp [processRequestRespond, writeFrame, hw]

/-- Claim C8 amended witness: an errored result with empty data yields an
empty Response body. -/
theorem claim8_response_discards_error_witness :
    (processRequestRespond (newConnection "n") 7 [] (some .receiver) true).frames =
      [Frame.response 7 []] := by
  have h := (claim8_response_discards_error (newConnection "n") 7 []
    (some .receiver) none rfl).2
  simpa [newConnection] using h

/-- Claim C9: when no inbound frame has arrived for longer than the idle
threshold, a pinger tick initiates a Ping; if the pong does not arrive
within the timeout the connection closes, and if it does the connection
stays open and the smoothed latency becomes the mean of the old value and
the measured round trip.  The thresholds are 5 minutes and 30 seconds. -/
theorem claim9_pinger_liveness (c : Connection) (now : Nat) (pong : Bool) (lat : Int)
    (hidle : now - c.lastReceive > pingIdleTime) (hcl : c.closed = false) :
    (pingerIteration c now pong lat).2 = true ∧
    (pong = false → (pingerIteration c now pong lat).1.closed = true) ∧
    (pong = true → (pingerIteration c now pong lat).1.closed = false ∧
      (pingerIteration c now pong lat).1.peerLatency = (c.peerLatency + lat) / 2) ∧
    pingIdleTime = 300 * nanosPerSecond ∧ pingTimeout = 30 * nanosPerSecond := by
  refine ⟨?_, ?_, ?_, by norm_num [pingIdleTime, nanosPerSecond], rfl⟩
  · cases pong <;> simp [pingerIteration, hidle]
  · rintro rfl
    simp [pingerIteration, hidle, close_closed_flag]
  · rintro rfl
    simp [pingerIteration, hidle, hcl]

/-- Claim C9 witness: one nanosecond past the idle threshold with no pong
in time, the tick pings and the connection closes. -/
theorem claim9_pinger_liveness_witness :
    (pingerIteration (newConnection "n") (pingIdleTime + 1) false 0).2 = true ∧
    (pingerIteration (newConnection "n") (pingIdleTime + 1) false 0).1.closed = true := by
  have h := claim9_pinger_liveness (newConnection "n") (pingIdleTime + 1) false 0
    (by norm_num [newConnection, pingIdleTime, nanosPerSecond]) rfl
  exact ⟨h.1, h.2.1 rfl⟩

end Proto
